import Mathlib

/-!
Verification development for the Global Indicator Data Processor
(`src/main.py`).  The script reads a wide-format CSV with pandas,
reshapes it to long format, merges a classification column and exports
the result to Excel, splitting sheets at the spreadsheet row limit.

The shallow embedding below models a loaded table as a list of column
names together with rows of cells; a cell is either missing (NaN after
`na_values` handling), a number, or raw text.  Every function of the
script (`safe_read`, `prepare_data`, `save_and_show`) is translated
into a computable Lean definition over this data model; the effectful
boundaries (the file system, the per-encoding parse outcomes, and the
Excel writer's failures) are passed in as explicit parameters.
-/

namespace GIP

/-- A cell of a loaded table: missing (NaN, produced by the reader's
`na_values` handling or by failed coercion), a numeric value, or raw
text.  Numbers are modelled as integers. -/
inductive Cell where
  | missing : Cell
  | num : Int → Cell
  | str : String → Cell
deriving DecidableEq, Repr

/-- Pandas elementwise equality `==` on cells: NaN compares unequal to
everything, including NaN itself; otherwise values compare structurally. -/
def cellEqB : Cell → Cell → Bool
  | Cell.missing, _ => false
  | _, Cell.missing => false
  | Cell.num a, Cell.num b => a == b
  | Cell.str a, Cell.str b => a == b
  | _, _ => false

/-- Python `str()` of a cell value (`str(code)` in `save_and_show`):
NaN prints as "nan", numbers and text as themselves. -/
def cellToString : Cell → String
  | Cell.missing => "nan"
  | Cell.num x => toString x
  | Cell.str s => s

/-- `needle.leadsWith hay`: the first list is an initial segment of the
second (spelled out so it evaluates by `decide`). -/
def leadsWith : List Char → List Char → Bool
  | [], _ => true
  | _ :: _, [] => false
  | a :: as, b :: bs => a == b && leadsWith as bs

/-- Substring test on character lists, the semantics of Python's
`needle in hay`. -/
def hasSub (needle : List Char) : List Char → Bool
  | [] => needle.isEmpty
  | b :: bs => leadsWith needle (b :: bs) || hasSub needle bs

/-- Python's `needle in hay` on strings. -/
def strHas (hay needle : String) : Bool := hasSub needle.data hay.data

/-- Python slice `s[:n]`. -/
def strTake (s : String) (n : Nat) : String := ⟨s.data.take n⟩

/-- ASCII whitespace, for Python `str.strip()`. -/
def isWS (c : Char) : Bool := c == ' ' || c == '\t' || c == '\n' || c == '\r'

/-- Python `str.strip()` / pandas `str.strip()`: remove leading and
trailing whitespace. -/
def pyStrip (s : String) : String :=
  ⟨((s.data.dropWhile isWS).reverse.dropWhile isWS).reverse⟩

/-- Lower-casing, for Python `c.lower()`. -/
def strLower (s : String) : String := ⟨s.data.map Char.toLower⟩

/-- Numeric value of a list of decimal digits. -/
def digitsVal (cs : List Char) : Nat :=
  cs.foldl (fun a c => a * 10 + (c.toNat - 48)) 0

/-- Parse a (possibly signed) decimal integer literal, after stripping
whitespace; `none` on anything else.  Models the successful cases of
`pd.to_numeric` on text. -/
def parseIntStr (s : String) : Option Int :=
  match (pyStrip s).data with
  | '-' :: rest =>
      if !rest.isEmpty && rest.all Char.isDigit then
        some (-(digitsVal rest : Int))
      else none
  | cs =>
      if !cs.isEmpty && cs.all Char.isDigit then
        some ((digitsVal cs : Int))
      else none

/-- `pd.to_numeric(v, errors='coerce')` on one cell: numbers pass
through, numeric text parses, everything else (including NaN) coerces
to NaN, modelled as `none`. -/
def toNum : Cell → Option Int
  | Cell.num x => some x
  | Cell.str s => parseIntStr s
  | Cell.missing => none

/-- A loaded data frame: column names plus rows of cells; the i-th cell
of a row belongs to the i-th column. -/
structure Table where
  cols : List String
  rows : List (List Cell)
deriving DecidableEq, Repr

/-- `row[c]`: the cell of `row` under the first column named `c`
(missing when the column does not exist, which pandas would raise on;
the pipeline only reads columns it has located). -/
def getCell (cols : List String) (row : List Cell) (c : String) : Cell :=
  match cols.findIdx? (fun x => x == c) with
  | some i => row.getD i Cell.missing
  | none => Cell.missing

/-- `next((c for c in df.columns if key in c), None)` from
`prepare_data`: the first column whose name contains `key`. -/
def findCol (cols : List String) (key : String) : Option String :=
  cols.find? (fun c => strHas c key)

/-- The substrings whose presence marks a year column
(`['20', '19', 'YR']` on line 85 of `src/main.py`). -/
def YEARKEYS : List String := ["20", "19", "YR"]

/-- Line 85: a column is a year/value column when its name contains one
of the `YEARKEYS` substrings. -/
def isYearCol (c : String) : Bool := YEARKEYS.any (fun k => strHas c k)

/-- `year_cols`: the columns classified as year/value columns. -/
def yearCols (cols : List String) : List String := cols.filter isYearCol

/-- `id_cols`: every column that is not a year column. -/
def idCols (cols : List String) : List String :=
  cols.filter (fun c => !isYearCol c)

/-- One melted record: the identifier cells, the originating year
column's name (`var_name='Year'`), and that column's cell
(`value_name='Value'`). -/
structure MeltRow where
  ids : List Cell
  yearName : String
  value : Cell
deriving DecidableEq, Repr

/-- The identifier cells of a wide row, in `id_cols` order. -/
def rowIds (t : Table) (r : List Cell) : List Cell :=
  (idCols t.cols).map (getCell t.cols r)

/-- `pd.melt(df, id_vars=id_cols, value_vars=year_cols, ...)`: one
record per (year column, input row) pair, grouped by year column as
pandas emits them. -/
def melt (t : Table) : List MeltRow :=
  (yearCols t.cols).flatMap (fun yc =>
    t.rows.map (fun r => ⟨rowIds t r, yc, getCell t.cols r yc⟩))

/-- A window of four characters at the head of the list, provided all
four are digits. -/
def win4 : List Char → Option (List Char)
  | a :: b :: c :: d :: _ =>
      if a.isDigit && b.isDigit && c.isDigit && d.isDigit then
        some [a, b, c, d]
      else none
  | _ => none

/-- The regex search `(\d{4})`: the first position holding four
consecutive digits, scanning left to right. -/
def extract4 : List Char → Option (List Char)
  | [] => none
  | c :: rest =>
      match win4 (c :: rest) with
      | some w => some w
      | none => extract4 rest

/-- Line 101: `str.extract(r'(\d{4})')` on a year-column name, parsed
to a number. -/
def extractYear (s : String) : Option Nat := (extract4 s.data).map digitsVal

/-- A melted record after year normalization (lines 101-103): the year
is now an integer, the value still uncoerced. -/
structure YearRow where
  ids : List Cell
  year : Nat
  value : Cell
deriving DecidableEq, Repr

/-- A fully cleaned long record (after line 105): integer year and
numeric value. -/
structure LongRow where
  ids : List Cell
  year : Nat
  value : Int
deriving DecidableEq, Repr

/-- Lines 101-103: extract the year from the melted column name and
drop rows where the regex found nothing. -/
def yearStep (ms : List MeltRow) : List YearRow :=
  ms.filterMap (fun m => (extractYear m.yearName).map (fun y => ⟨m.ids, y, m.value⟩))

/-- Lines 104-105: coerce `Value` to numeric and drop rows where the
coercion produced NaN. -/
def valueStep (ys : List YearRow) : List LongRow :=
  ys.filterMap (fun r => (toNum r.value).map (fun v => ⟨r.ids, r.year, v⟩))

/-- The full melt-and-clean pipeline of `prepare_data`
(lines 92-105). -/
def cleanLong (t : Table) : List LongRow := valueStep (yearStep (melt t))

/-- Row-wise survival test: a melted record survives cleaning exactly
when the year extraction and the numeric coercion both succeed. -/
def cleanRow (m : MeltRow) : Option LongRow :=
  match extractYear m.yearName, toNum m.value with
  | some y, some v => some ⟨m.ids, y, v⟩
  | _, _ => none

/-- The cleaned long data as a data frame again: identifier columns
followed by `Year` and `Value`. -/
def longTable (t : Table) : Table :=
  { cols := idCols t.cols ++ ["Year", "Value"],
    rows := (cleanLong t).map
      (fun lr => lr.ids ++ [Cell.num (lr.year : Int), Cell.num lr.value]) }

/-- Boolean membership test (structural, so it evaluates in the
kernel). -/
def memB {α : Type} [DecidableEq α] (x : α) : List α → Bool
  | [] => false
  | a :: rest => if x = a then true else memB x rest

/-- First-appearance-order deduplication with an accumulator of the
values already seen. -/
def uniqFirstAux {α : Type} [DecidableEq α] : List α → List α → List α
  | _, [] => []
  | seen, a :: rest =>
      if memB a seen then uniqFirstAux seen rest
      else a :: uniqFirstAux (seen ++ [a]) rest

/-- First-appearance-order deduplication, the semantics of pandas
`Series.unique()` (NaN values are collapsed to one occurrence) and of
`drop_duplicates()`. -/
def uniqFirst {α : Type} [DecidableEq α] (l : List α) : List α :=
  uniqFirstAux [] l

/-- Whether a cell is numeric or missing (no raw text), the shape of a
synthetic wide table with known values. -/
def numOrMissing : Cell → Bool
  | Cell.missing => true
  | Cell.num _ => true
  | Cell.str _ => false

/-- Result of a Python call that may raise: a value, or an exception
carrying whether it is a `PermissionError` and its message. -/
inductive PyResult (α : Type) where
  | val : α → PyResult α
  | exn : Bool → String → PyResult α
deriving Repr

/-- Whether a `PyResult` is a normal value (no exception escaped). -/
def PyResult.isVal {α : Type} : PyResult α → Bool
  | PyResult.val _ => true
  | PyResult.exn _ _ => false

/-- Line 114: `df_country[['Country Code', 'Income Group']]` as
key/value pairs (the rename to `country_col` only changes the column
label, not the keys). -/
def countryPairs (ct : Table) : List (Cell × Cell) :=
  ct.rows.map (fun r =>
    (getCell ct.cols r "Country Code", getCell ct.cols r "Income Group"))

/-- The key equality `pd.merge` uses to match join keys: unlike
elementwise `==` (`cellEqB`), merge matches null keys against each
other ("If both key columns contain rows where the key is a null
value, those rows will be matched against each other"), so it is
structural equality on cells. -/
def mergeKeyEq (a b : Cell) : Bool := a == b

/-- Line 115: `pd.merge(df_long, info, on=country_col, how='left')`.
Each left row keeps its cells and gains one category cell per matching
classification entry (null keys match each other, per `mergeKeyEq`),
or a missing cell when nothing matches.  When the long table already
has an `Income Group` column, pandas disambiguates the overlapping
pair with the default suffixes `_x`/`_y`; the model renames the
existing column and appends the new one accordingly. -/
def mergeLeft (lg : Table) (ccol : String) (pairs : List (Cell × Cell)) : Table :=
  { cols :=
      if lg.cols.contains "Income Group" then
        (lg.cols.map (fun c => if c == "Income Group" then "Income Group_x" else c))
          ++ ["Income Group_y"]
      else lg.cols ++ ["Income Group"],
    rows := lg.rows.flatMap (fun r =>
      let k := getCell lg.cols r ccol
      let hits := pairs.filter (fun p => mergeKeyEq k p.1)
      if hits.isEmpty then [r ++ [Cell.missing]]
      else hits.map (fun p => r ++ [p.2])) }

/-- The body of the `try` block on lines 110-116, with its one raising
operation made explicit: selecting `['Country Code', 'Income Group']`
from the classification table raises `KeyError` when either column is
absent (after the column-name strip on line 113). -/
def mergeRaw (lg : Table) (ccol : String) (country : Option Table) : PyResult Table :=
  match country with
  | none => PyResult.val lg
  | some ct0 =>
      let ct : Table := { ct0 with cols := ct0.cols.map pyStrip }
      if ct.cols.contains "Country Code" && ct.cols.contains "Income Group" then
        PyResult.val (mergeLeft lg ccol (countryPairs ct))
      else
        PyResult.exn false "KeyError"

/-- Lines 110-118: the classification merge with its `except` clause.
Returns the (possibly unchanged) long table and whether the warning
`Could not merge country info` was printed. -/
def mergeStep (lg : Table) (ccol : String) (country : Option Table) : Table × Bool :=
  match mergeRaw lg ccol country with
  | PyResult.val t => (t, false)
  | PyResult.exn _ _ => (lg, true)

/-- Line 120: the distinct (indicator code, indicator name) pairs of the
original wide table, in first-appearance order. -/
def indicatorInfo (t : Table) (icol ncol : String) : List (Cell × Cell) :=
  uniqFirst (t.rows.map (fun r => (getCell t.cols r icol, getCell t.cols r ncol)))

/-- `prepare_data` (lines 61-123), with the two `safe_read` results
passed in (`none` models a loader failure).  Returns the long table (or
`none` on abort) and the metadata table (or `none` when no
`Indicator Name` column was found). -/
def prepare_data (main country : Option Table) :
    Option Table × Option (List (Cell × Cell)) :=
  match main with
  | none => (none, none)
  | some df0 =>
      let df : Table := { df0 with cols := df0.cols.map pyStrip }
      match findCol df.cols "Country Code", findCol df.cols "Indicator Code" with
      | some ccol, some icol =>
          let lg := longTable df
          let merged := (mergeStep lg ccol country).1
          let info := (findCol df.cols "Indicator Name").map (indicatorInfo df icol)
          (some merged, info)
      | _, _ => (none, none)

/-- Line 144: the Excel row limit. -/
def EXCEL_MAX_ROWS : Nat := 1048576

/-- Line 145: one row reserved for the header. -/
def SAFE_MAX : Nat := EXCEL_MAX_ROWS - 1

/-- One written sheet: its name and its rows. -/
structure Sheet where
  name : String
  rows : List (List Cell)
deriving DecidableEq, Repr

/-- Line 149: the exact lower-case spellings accepted for an indicator
code column. -/
def NAME_ALTS : List String := ["indicator code", "indicator_code", "indicatorcode"]

/-- Line 149: `'Indicator Code' in c or c.lower() in (...)`. -/
def isIndicatorCol (c : String) : Bool :=
  strHas c "Indicator Code" || NAME_ALTS.contains (strLower c)

/-- Lines 149-150: the first matching indicator-code column, when one
exists. -/
def findIndicatorCol (cols : List String) : Option String :=
  (cols.filter isIndicatorCol).head?

/-- `range(0, n, k)` slicing: consecutive chunks of at most `k`
elements (`df.iloc[start:start+k]`). -/
def chunksOf {α : Type} (k : Nat) (xs : List α) : List (List α) :=
  if hk : k = 0 then []
  else if hx : xs.isEmpty then []
  else xs.take k :: chunksOf k (xs.drop k)
termination_by xs.length
decreasing_by
  simp only [List.length_drop]
  refine Nat.sub_lt ?_ (Nat.pos_of_ne_zero hk)
  cases xs with
  | nil => simp at hx
  | cons a as => simp

/-- `enumerate(..., start=i)` combined with a builder. -/
def numberWith {α β : Type} (f : Nat → α → β) : Nat → List α → List β
  | _, [] => []
  | i, a :: as => f i a :: numberWith f (i + 1) as

/-- Lines 153-159: no indicator column; split purely by row position
into sheets `Part{i}` (names sliced to 31 characters). -/
def partSheets (rows : List (List Cell)) : List Sheet :=
  numberWith (fun i part => ⟨strTake ("Part" ++ toString i) 31, part⟩)
    1 (chunksOf SAFE_MAX rows)

/-- Lines 169-179: the sheets for one indicator's row group: one sheet
named by the code sliced to 28 characters when the group fits, else
consecutive chunks named `{code[:20]}_p{i}` sliced to 31 characters. -/
def codeSheets (code : Cell) (sub : List (List Cell)) : List Sheet :=
  if sub.length ≤ SAFE_MAX then
    [⟨strTake (cellToString code) 28, sub⟩]
  else
    numberWith
      (fun i part =>
        ⟨strTake (strTake (cellToString code) 20 ++ "_p" ++ toString i) 31, part⟩)
      1 (chunksOf SAFE_MAX sub)

/-- Line 164: `df[df[indicator_col] == code]`. -/
def subFor (t : Table) (icol : String) (code : Cell) : List (List Cell) :=
  t.rows.filter (fun r => cellEqB (getCell t.cols r icol) code)

/-- Lines 161-179: partition by distinct indicator code in
first-appearance order, skipping empty groups (`continue`). -/
def indicatorSheets (t : Table) (icol : String) : List Sheet :=
  (uniqFirst (t.rows.map (fun r => getCell t.cols r icol))).flatMap
    (fun code =>
      let sub := subFor t icol code
      if sub.length = 0 then [] else codeSheets code sub)

/-- Lines 152-179: the data sheets written for a long table. -/
def dataSheets (t : Table) : List Sheet :=
  match findIndicatorCol t.cols with
  | none => partSheets t.rows
  | some icol => indicatorSheets t icol

/-- Lines 181-182: the unconditional `Indicator_Info` sheet when a
metadata table is present. -/
def infoSheet (info : Option (List (Cell × Cell))) : List Sheet :=
  match info with
  | none => []
  | some ps => [⟨"Indicator_Info", ps.map (fun p => [p.1, p.2])⟩]

/-- Every sheet `save_and_show` asks the writer to emit, in order. -/
def allSheets (t : Table) (info : Option (List (Cell × Cell))) : List Sheet :=
  dataSheets t ++ infoSheet info

/-- The writer loop: `wfail i` injects the outcome of the i-th
`to_excel` call (`none` = success, `some (perm, msg)` = raises). -/
def writeLoop (wfail : Nat → Option (Bool × String)) :
    List Sheet → Nat → PyResult (List Sheet)
  | [], _ => PyResult.val []
  | s :: rest, i =>
      match wfail i with
      | some e => PyResult.exn e.1 e.2
      | none =>
          match writeLoop wfail rest (i + 1) with
          | PyResult.val ws => PyResult.val (s :: ws)
          | PyResult.exn p m => PyResult.exn p m

/-- The body of the `try` block on lines 147-184: opening the
`ExcelWriter` may raise (`openErr`), and each sheet write may raise. -/
def exportRaw (sheets : List Sheet) (openErr : Option (Bool × String))
    (wfail : Nat → Option (Bool × String)) : PyResult (List Sheet) :=
  match openErr with
  | some e => PyResult.exn e.1 e.2
  | none => writeLoop wfail sheets 0

/-- What `save_and_show` did: nothing (absent input), a completed
export, the locked-file report, or the generic error report. -/
inductive ExportReport where
  | skipped : ExportReport
  | completed : List Sheet → ExportReport
  | lockedMsg : ExportReport
  | errorMsg : String → ExportReport
deriving Repr

/-- `save_and_show` (lines 130-188): absent input is a no-op; the
export body runs under `try`, `PermissionError` is reported as the
locked-file condition, any other exception generically.  The outer
`PyResult` records whether an exception escaped the function itself. -/
def save_and_show (df : Option Table) (info : Option (List (Cell × Cell)))
    (openErr : Option (Bool × String)) (wfail : Nat → Option (Bool × String)) :
    PyResult ExportReport :=
  match df with
  | none => PyResult.val ExportReport.skipped
  | some t =>
      match exportRaw (allSheets t info) openErr wfail with
      | PyResult.val ws => PyResult.val (ExportReport.completed ws)
      | PyResult.exn true _ => PyResult.val ExportReport.lockedMsg
      | PyResult.exn false m => PyResult.val (ExportReport.errorMsg m)

/-- `prepare_data` wrapped as a Python call result: in the model every
potentially raising operation it contains (the classification merge) is
already handled by its `except` clause, so the function itself always
returns normally. -/
def prepare_dataE (main country : Option Table) :
    PyResult (Option Table × Option (List (Cell × Cell))) :=
  PyResult.val (prepare_data main country)

/-- Outcome of one `pd.read_csv` attempt under one encoding: a
`UnicodeDecodeError`, some other parse error, or a parsed table. -/
inductive ReadAttempt where
  | decodeErr : ReadAttempt
  | otherErr : ReadAttempt
  | ok : Table → ReadAttempt
deriving DecidableEq, Repr

/-- Line 35: the fixed encoding fallback list. -/
def ENCODINGS : List String := ["utf-8", "cp1252", "latin-1", "iso-8859-9"]

/-- The encoding loop of `safe_read` (lines 36-54): first successful
parse wins, a `UnicodeDecodeError` moves to the next encoding, any
other error returns `None` immediately. -/
def tryEncs (f : String → ReadAttempt) : List String → Option (Table × String)
  | [] => none
  | e :: rest =>
      match f e with
      | ReadAttempt.ok t => some (t, e)
      | ReadAttempt.decodeErr => tryEncs f rest
      | ReadAttempt.otherErr => none

/-- `safe_read` (lines 28-54): `None` when the file does not exist,
otherwise the encoding loop over the fixed list, where `f` gives the
parse outcome of the file under each encoding. -/
def safe_read (exists_ : Bool) (f : String → ReadAttempt) :
    Option (Table × String) :=
  if exists_ then tryEncs f ENCODINGS else none

/-- Modelled from the spec: the claim's reading of year extraction.
Lengths of the maximal digit runs of a string (accumulator = length of
the current run). -/
def digitRuns : List Char → Nat → List Nat
  | [], 0 => []
  | [], n + 1 => [n + 1]
  | c :: rest, n =>
      if c.isDigit then digitRuns rest (n + 1)
      else if n = 0 then digitRuns rest 0
      else n :: digitRuns rest 0

/-- Modelled from the spec: "the year column's name contains a run of
exactly four digits" — some maximal digit run has length exactly 4.
This is the claim's predicate, to be compared with the code's
`extract4`. -/
def hasExact4Run (s : String) : Bool := (digitRuns s.data 0).any (fun n => n == 4)

/-- Lookup in the long data: the first record with the given identifier
cells and year (un-pivoting for the round-trip property). -/
def lookupLong (ls : List LongRow) (ids : List Cell) (y : Nat) : Option Int :=
  (ls.find? (fun r => r.ids == ids && r.year == y)).map (fun r => r.value)

/-- Counterexample table for C1: the column "19999" passes the year
heuristic (it contains "19") and its only maximal digit run has length
five, not four. -/
def w1ce : Table :=
  { cols := ["Country Code", "Indicator Code", "19999"],
    rows := [[Cell.str "AAA", Cell.str "IND", Cell.num 5]] }

/-- Counterexample table for C7: an indicator code that is the empty
string yields the empty sheet name under the code-naming scheme. -/
def c7table : Table :=
  { cols := ["Indicator Code"], rows := [[Cell.str ""]] }

/-- Demonstration table for C10: indicator BAD has only a non-numeric
value, so all its rows are dropped during cleaning. -/
def w10 : Table :=
  { cols := ["Country Code", "Indicator Code", "Indicator Name", "2000"],
    rows := [[Cell.str "AAA", Cell.str "GOOD", Cell.str "Good name", Cell.num 5],
             [Cell.str "AAA", Cell.str "BAD", Cell.str "Bad name", Cell.str "xx"]] }

/-- The long table `prepare_data` produces from `w10`. -/
def c10long : Table :=
  { cols := ["Country Code", "Indicator Code", "Indicator Name", "Year", "Value"],
    rows := [[Cell.str "AAA", Cell.str "GOOD", Cell.str "Good name",
              Cell.num 2000, Cell.num 5]] }

/-- The metadata pairs `prepare_data` produces from `w10`. -/
def c10info : List (Cell × Cell) :=
  [(Cell.str "GOOD", Cell.str "Good name"), (Cell.str "BAD", Cell.str "Bad name")]

/-- Round-trip demonstration table for C8: two entities, two year
columns, one missing cell. -/
def w8 : Table :=
  { cols := ["Country Code", "Indicator Code", "1990", "2000"],
    rows := [[Cell.str "AAA", Cell.str "I1", Cell.num 7, Cell.missing],
             [Cell.str "BBB", Cell.str "I1", Cell.num 3, Cell.num 4]] }

/-- Demonstration table for C9: one row with a missing indicator code,
one with a present code. -/
def w9 : Table :=
  { cols := ["Indicator Code"], rows := [[Cell.missing], [Cell.str "A"]] }

/-! ## Helper lemmas -/

theorem data_append (s t : String) : (s ++ t).data = s.data ++ t.data := by
  cases s
  cases t
  rfl

theorem data_eq_nil_iff (s : String) : s.data = [] ↔ s = "" := by
  constructor
  · intro h
    cases s with
    | mk d =>
      have hd : d = [] := h
      subst hd
      rfl
  · intro h
    subst h
    rfl

theorem strTake_length_le (s : String) (n : Nat) : (strTake s n).length ≤ n := by
  show (s.data.take n).length ≤ n
  simp [List.length_take]

theorem take_ne_nil_of_ne_nil {α : Type} (l : List α) (n : Nat) (hn : 0 < n)
    (hl : l ≠ []) : l.take n ≠ [] := by
  cases l with
  | nil => exact absurd rfl hl
  | cons a as =>
    cases n with
    | zero => omega
    | succ m => simp

theorem strTake_ne_empty (s : String) (n : Nat) (hn : 0 < n) (hs : s.data ≠ []) :
    strTake s n ≠ "" := by
  intro h
  have hd : s.data.take n = [] := (data_eq_nil_iff (strTake s n)).mpr h
  exact take_ne_nil_of_ne_nil s.data n hn hs hd

theorem cellEqB_missing_left (x : Cell) : cellEqB Cell.missing x = false := by
  cases x <;> rfl

theorem cellEqB_missing_right (x : Cell) : cellEqB x Cell.missing = false := by
  cases x <;> rfl

theorem chunksOf_flatten {α : Type} (k : Nat) (hk : 0 < k) (xs : List α) :
    (chunksOf k xs).flatten = xs := by
  rw [chunksOf]
  split
  · omega
  · split
    · rename_i hx
      have hxe : xs = [] := by
        cases xs with
        | nil => rfl
        | cons a as => simp at hx
      simp [hxe]
    · simp only [List.flatten_cons]
      rw [chunksOf_flatten k hk (xs.drop k)]
      exact List.take_append_drop k xs
termination_by xs.length
decreasing_by
  simp only [List.length_drop]
  refine Nat.sub_lt ?_ hk
  rename_i hx
  cases xs with
  | nil => simp at hx
  | cons a as => simp

theorem chunksOf_mem_length {α : Type} (k : Nat) (xs : List α) (c : List α)
    (hc : c ∈ chunksOf k xs) : c.length ≤ k := by
  rw [chunksOf] at hc
  split at hc
  · exact absurd hc (List.not_mem_nil c)
  · split at hc
    · exact absurd hc (List.not_mem_nil c)
    · rcases List.mem_cons.mp hc with h | h
      · subst h
        simp [List.length_take]
      · exact chunksOf_mem_length k (xs.drop k) c h
termination_by xs.length
decreasing_by
  simp only [List.length_drop]
  rename_i hk hx
  refine Nat.sub_lt ?_ (Nat.pos_of_ne_zero hk)
  cases xs with
  | nil => simp at hx
  | cons a as => simp

theorem chunksOf_mem_subset {α : Type} (k : Nat) (xs : List α) (c : List α)
    (hc : c ∈ chunksOf k xs) : ∀ x ∈ c, x ∈ xs := by
  rw [chunksOf] at hc
  split at hc
  · exact absurd hc (List.not_mem_nil c)
  · split at hc
    · exact absurd hc (List.not_mem_nil c)
    · rcases List.mem_cons.mp hc with h | h
      · subst h
        exact fun x hx => List.take_subset k xs hx
      · intro x hx
        exact List.drop_subset k xs (chunksOf_mem_subset k (xs.drop k) c h x hx)
termination_by xs.length
decreasing_by
  simp only [List.length_drop]
  rename_i hk hx
  refine Nat.sub_lt ?_ (Nat.pos_of_ne_zero hk)
  cases xs with
  | nil => simp at hx
  | cons a as => simp

theorem chunksOf_pair {α : Type} (k : Nat) (xs : List α) (h1 : k < xs.length)
    (h2 : xs.length ≤ 2 * k) : chunksOf k xs = [xs.take k, xs.drop k] := by
  have hne : ¬ xs.isEmpty = true := by
    cases xs with
    | nil => simp at h1
    | cons a as => simp
  rw [chunksOf, dif_neg (by omega : ¬ k = 0), dif_neg hne]
  have hdl : (xs.drop k).length = xs.length - k := List.length_drop k xs
  have hne2 : ¬ (xs.drop k).isEmpty = true := by
    rw [List.isEmpty_iff, ← List.length_eq_zero]
    omega
  rw [chunksOf, dif_neg (by omega : ¬ k = 0), dif_neg hne2]
  have htk : (xs.drop k).take k = xs.drop k := List.take_of_length_le (by omega)
  have hdd : (xs.drop k).drop k = [] := List.drop_eq_nil_of_le (by omega)
  rw [htk, hdd, chunksOf]
  simp

theorem numberWith_map_rows (mkname : Nat → String) :
    ∀ (i : Nat) (l : List (List (List Cell))),
      ((numberWith (fun i part => Sheet.mk (mkname i) part) i l).map Sheet.rows) = l := by
  intro i l
  induction l generalizing i with
  | nil => rfl
  | cons a as ih => simp [numberWith, ih]

theorem mem_numberWith {α β : Type} (f : Nat → α → β) (b : β) :
    ∀ (i : Nat) (l : List α), b ∈ numberWith f i l → ∃ j a, a ∈ l ∧ b = f j a := by
  intro i l
  induction l generalizing i with
  | nil =>
    intro h
    exact absurd h (List.not_mem_nil b)
  | cons a as ih =>
    intro h
    rcases List.mem_cons.mp h with h | h
    · exact ⟨i, a, List.mem_cons_self a as, h⟩
    · rcases ih (i + 1) h with ⟨j, x, hx, hb⟩
      exact ⟨j, x, List.mem_cons_of_mem a hx, hb⟩

theorem memB_eq_false_iff {α : Type} [DecidableEq α] (x : α) (l : List α) :
    memB x l = false ↔ x ∉ l := by
  induction l with
  | nil => simp [memB]
  | cons a rest ih =>
    by_cases hxa : x = a
    · subst hxa
      simp [memB]
    · simp [memB, hxa, ih]

theorem mem_uniqFirstAux {α : Type} [DecidableEq α] (x : α) :
    ∀ (l seen : List α), x ∈ l → memB x seen = false →
      x ∈ uniqFirstAux seen l := by
  intro l
  induction l with
  | nil =>
    intro seen hx _
    exact absurd hx (List.not_mem_nil x)
  | cons a rest ih =>
    intro seen hx hseen
    by_cases hxa : x = a
    · subst hxa
      rw [uniqFirstAux, if_neg (by simp [hseen])]
      exact List.mem_cons_self _ _
    · have hx' : x ∈ rest := by
        rcases List.mem_cons.mp hx with h | h
        · exact absurd h hxa
        · exact h
      by_cases hca : memB a seen = true
      · rw [uniqFirstAux, if_pos hca]
        exact ih seen hx' hseen
      · rw [uniqFirstAux, if_neg hca]
        refine List.mem_cons_of_mem a (ih (seen ++ [a]) hx' ?_)
        rw [memB_eq_false_iff] at hseen ⊢
        simp [List.mem_append, hxa, hseen]

theorem mem_uniqFirst {α : Type} [DecidableEq α] (l : List α) (x : α)
    (hx : x ∈ l) : x ∈ uniqFirst l :=
  mem_uniqFirstAux x l [] hx rfl

theorem isYearCol_eq (c : String) :
    isYearCol c = (strHas c "20" || strHas c "19" || strHas c "YR") := by
  simp [isYearCol, YEARKEYS, List.any_cons, List.any_nil, Bool.or_assoc]

theorem melt_length (t : Table) :
    (melt t).length = (yearCols t.cols).length * t.rows.length := by
  unfold melt
  generalize yearCols t.cols = ycs
  induction ycs with
  | nil => simp
  | cons c cs ih =>
    simp only [List.flatMap_cons, List.length_append, List.length_map, ih,
      List.length_cons]
    ring

theorem cleanLong_eq (t : Table) : cleanLong t = (melt t).filterMap cleanRow := by
  unfold cleanLong valueStep yearStep
  rw [List.filterMap_filterMap]
  congr 1
  funext m
  cases h1 : extractYear m.yearName <;> cases h2 : toNum m.value <;>
    simp [cleanRow, h1, h2]

theorem mem_melt (t : Table) (m : MeltRow) :
    m ∈ melt t ↔ ∃ c, c ∈ yearCols t.cols ∧ ∃ r, r ∈ t.rows ∧
      m = ⟨rowIds t r, c, getCell t.cols r c⟩ := by
  simp only [melt, List.mem_flatMap, List.mem_map]
  constructor
  · rintro ⟨c, hc, r, hr, hm⟩
    exact ⟨c, hc, r, hr, hm.symm⟩
  · rintro ⟨c, hc, r, hr, hm⟩
    exact ⟨c, hc, r, hr, hm.symm⟩

theorem cleanRow_eq_some (m : MeltRow) (lr : LongRow) :
    cleanRow m = some lr ↔
      extractYear m.yearName = some lr.year ∧ toNum m.value = some lr.value ∧
        lr.ids = m.ids := by
  obtain ⟨ids, yr, vl⟩ := lr
  cases h1 : extractYear m.yearName <;> cases h2 : toNum m.value <;>
    simp [cleanRow, h1, h2] <;> tauto

theorem mem_cleanLong (t : Table) (lr : LongRow) :
    lr ∈ cleanLong t ↔ ∃ c, c ∈ yearCols t.cols ∧ ∃ r, r ∈ t.rows ∧
      extractYear c = some lr.year ∧
        toNum (getCell t.cols r c) = some lr.value ∧ lr.ids = rowIds t r := by
  rw [cleanLong_eq, List.mem_filterMap]
  constructor
  · rintro ⟨m, hm, hcr⟩
    rcases (mem_melt t m).mp hm with ⟨c, hc, r, hr, hmeq⟩
    subst hmeq
    rcases (cleanRow_eq_some _ lr).mp hcr with ⟨h1, h2, h3⟩
    exact ⟨c, hc, r, hr, h1, h2, h3⟩
  · rintro ⟨c, hc, r, hr, h1, h2, h3⟩
    refine ⟨⟨rowIds t r, c, getCell t.cols r c⟩,
      (mem_melt t _).mpr ⟨c, hc, r, hr, rfl⟩, ?_⟩
    exact (cleanRow_eq_some _ lr).mpr ⟨h1, h2, h3⟩

theorem tryEncs_append (f : String → ReadAttempt) (pre l : List String)
    (hpre : ∀ e ∈ pre, f e = ReadAttempt.decodeErr) :
    tryEncs f (pre ++ l) = tryEncs f l := by
  induction pre with
  | nil => rfl
  | cons e es ih =>
    have he : f e = ReadAttempt.decodeErr := hpre e (List.mem_cons_self _ _)
    rw [List.cons_append, tryEncs, he]
    exact ih (fun x hx => hpre x (List.mem_cons_of_mem e hx))

theorem tryEncs_all_decode (f : String → ReadAttempt) (l : List String)
    (h : ∀ e ∈ l, f e = ReadAttempt.decodeErr) : tryEncs f l = none := by
  induction l with
  | nil => rfl
  | cons e es ih =>
    rw [tryEncs, h e (List.mem_cons_self _ _)]
    exact ih (fun x hx => h x (List.mem_cons_of_mem e hx))

theorem partSheets_flatten (rows : List (List Cell)) :
    ((partSheets rows).map Sheet.rows).flatten = rows := by
  unfold partSheets
  rw [numberWith_map_rows]
  exact chunksOf_flatten SAFE_MAX (by norm_num [SAFE_MAX, EXCEL_MAX_ROWS]) rows

theorem partSheets_rows_le (rows : List (List Cell)) :
    ∀ s ∈ partSheets rows, s.rows.length ≤ SAFE_MAX := by
  intro s hs
  unfold partSheets at hs
  rcases mem_numberWith _ _ _ _ hs with ⟨j, a, ha, hb⟩
  subst hb
  exact chunksOf_mem_length SAFE_MAX rows a ha

theorem codeSheets_flatten (code : Cell) (sub : List (List Cell)) :
    ((codeSheets code sub).map Sheet.rows).flatten = sub := by
  unfold codeSheets
  split
  · simp
  · rw [numberWith_map_rows]
    exact chunksOf_flatten SAFE_MAX (by norm_num [SAFE_MAX, EXCEL_MAX_ROWS]) sub

theorem codeSheets_rows_le (code : Cell) (sub : List (List Cell)) :
    ∀ s ∈ codeSheets code sub, s.rows.length ≤ SAFE_MAX := by
  intro s hs
  unfold codeSheets at hs
  split at hs
  · rename_i h
    rcases List.mem_singleton.mp hs with rfl
    exact h
  · rcases mem_numberWith _ _ _ _ hs with ⟨j, a, ha, hb⟩
    subst hb
    exact chunksOf_mem_length SAFE_MAX sub a ha

theorem codeSheets_rows_subset (code : Cell) (sub : List (List Cell)) :
    ∀ s ∈ codeSheets code sub, ∀ x ∈ s.rows, x ∈ sub := by
  intro s hs x hx
  unfold codeSheets at hs
  split at hs
  · rcases List.mem_singleton.mp hs with rfl
    exact hx
  · rcases mem_numberWith _ _ _ _ hs with ⟨j, a, ha, hb⟩
    subst hb
    exact chunksOf_mem_subset SAFE_MAX sub a ha x hx

theorem dataSheets_rows_le (t : Table) :
    ∀ s ∈ dataSheets t, s.rows.length ≤ SAFE_MAX := by
  intro s hs
  cases hfind : findIndicatorCol t.cols with
  | none =>
    simp only [dataSheets, hfind] at hs
    exact partSheets_rows_le t.rows s hs
  | some icol =>
    simp only [dataSheets, hfind, indicatorSheets, List.mem_flatMap] at hs
    rcases hs with ⟨code, hcode, hs⟩
    split at hs
    · exact absurd hs (List.not_mem_nil s)
    · exact codeSheets_rows_le code _ s hs

theorem findCol_none (cols : List String) (key : String)
    (h : (cols.all (fun c => !strHas c key)) = true) : findCol cols key = none := by
  rw [findCol, List.find?_eq_none]
  intro x hx
  have hb := List.all_eq_true.mp h x hx
  simp only [Bool.not_eq_true'] at hb
  simp [hb]

theorem sheetName_part_ne (j : Nat) : strTake ("Part" ++ toString j) 31 ≠ "" := by
  refine strTake_ne_empty _ 31 (by omega) ?_
  rw [data_append]
  intro hc
  exact absurd (List.append_eq_nil.mp hc).1 (by decide)

theorem sheetName_chunk_ne (s : String) (j : Nat) :
    strTake (s ++ "_p" ++ toString j) 31 ≠ "" := by
  refine strTake_ne_empty _ 31 (by omega) ?_
  rw [data_append, data_append]
  intro hc
  have h1 := (List.append_eq_nil.mp hc).1
  exact absurd (List.append_eq_nil.mp h1).2 (by decide)

theorem codeSheets_scenario (code : Cell) (sub : List (List Cell))
    (h : sub.length = 1048577) :
    (codeSheets code sub).map (fun s => s.rows.length) = [1048575, 2] := by
  have hch : chunksOf SAFE_MAX sub = [sub.take SAFE_MAX, sub.drop SAFE_MAX] := by
    refine chunksOf_pair SAFE_MAX sub ?_ ?_ <;>
      simp [SAFE_MAX, EXCEL_MAX_ROWS, h]
  unfold codeSheets
  rw [if_neg (by simp [SAFE_MAX, EXCEL_MAX_ROWS, h])]
  rw [hch]
  simp [numberWith, List.length_take, List.length_drop, h,
    SAFE_MAX, EXCEL_MAX_ROWS]

/-! ## Claims -/

/-- C1 (counterexample): the claim says a pivoted row survives only if
the year column's name contains a run of exactly four digits.  The
column name "19999" passes the year heuristic (it contains "19") and
its only maximal digit run has length five, yet the code's regex
`(\d{4})` still matches its first four digits, so the row survives with
Year = 1999 — contradicting the claim at the concrete table `w1ce`. -/
theorem spec_C1_counterexample :
    isYearCol "19999" = true ∧ hasExact4Run "19999" = false ∧
      cleanLong w1ce = [⟨[Cell.str "AAA", Cell.str "IND"], 1999, 5⟩] :=
  ⟨by decide, by decide, by decide⟩

/-- C1 (amended): a column is classified as a year/value column exactly
when its name contains "20", "19" or "YR"; melting produces one record
per (input row, year column) pair; and a record survives cleaning if
and only if the year column's name contains four consecutive digits
(the first such four-digit window, parsed as an integer, becomes Year,
per `extractYear`) and the value coerces to a number (`cleanRow`);
dropped rows are removed entirely, not kept as null. -/
theorem spec_C1_amended (t : Table) :
    yearCols t.cols =
        t.cols.filter (fun c => strHas c "20" || strHas c "19" || strHas c "YR") ∧
      (melt t).length = (yearCols t.cols).length * t.rows.length ∧
        cleanLong t = (melt t).filterMap cleanRow := by
  refine ⟨?_, melt_length t, cleanLong_eq t⟩
  unfold yearCols
  exact List.filter_congr (fun c _ => isYearCol_eq c)

/-- C2: every data sheet the exporter emits holds at most `SAFE_MAX` =
1,048,575 rows; the row-position sheets concatenate back to the input
rows; the sheets of one indicator group concatenate back to exactly
that group's rows (no duplication, no loss); and a group of exactly
1,048,577 rows is written as two sheets of 1,048,575 and 2 rows. -/
theorem spec_C2 (t : Table) (rows sub : List (List Cell)) (code : Cell) :
    (∀ s ∈ dataSheets t, s.rows.length ≤ SAFE_MAX) ∧
      ((partSheets rows).map Sheet.rows).flatten = rows ∧
        ((codeSheets code sub).map Sheet.rows).flatten = sub ∧
          (sub.length = 1048577 →
            (codeSheets code sub).map (fun s => s.rows.length) = [1048575, 2]) :=
  ⟨dataSheets_rows_le t, partSheets_flatten rows, codeSheets_flatten code sub,
    codeSheets_scenario code sub⟩

/-- C2 witness: a group of 1,048,577 rows is split into sheets of
1,048,575 and 2 rows. -/
theorem spec_C2_witness :
    (codeSheets (Cell.str "X") (List.replicate 1048577 ([] : List Cell))).map
        (fun s => s.rows.length) = [1048575, 2] :=
  (spec_C2 ⟨[], []⟩ [] (List.replicate 1048577 ([] : List Cell))
      (Cell.str "X")).2.2.2 (List.length_replicate 1048577 ([] : List Cell))

/-- C3: the loader returns `none` when the file does not exist; it
returns the parsed table together with the first encoding that decodes,
after any prefix of decode failures; it returns `none` when every
encoding fails to decode; and a non-decoding parse error yields `none`
immediately, whatever the remaining encodings would have done. -/
theorem spec_C3 :
    (∀ f, safe_read false f = none) ∧
      (∀ (f : String → ReadAttempt) (pre : List String) (e : String)
          (rest : List String) (tb : Table),
        ENCODINGS = pre ++ e :: rest →
          (∀ x ∈ pre, f x = ReadAttempt.decodeErr) →
            f e = ReadAttempt.ok tb → safe_read true f = some (tb, e)) ∧
      (∀ f, (∀ e ∈ ENCODINGS, f e = ReadAttempt.decodeErr) →
        safe_read true f = none) ∧
      (∀ (f : String → ReadAttempt) (pre : List String) (e : String)
          (rest : List String),
        ENCODINGS = pre ++ e :: rest →
          (∀ x ∈ pre, f x = ReadAttempt.decodeErr) →
            f e = ReadAttempt.otherErr → safe_read true f = none) := by
  refine ⟨fun f => rfl, ?_, ?_, ?_⟩
  · intro f pre e rest tb henc hpre he
    unfold safe_read
    rw [if_pos rfl, henc, tryEncs_append f pre _ hpre, tryEncs, he]
  · intro f h
    unfold safe_read
    rw [if_pos rfl]
    exact tryEncs_all_decode f ENCODINGS h
  · intro f pre e rest henc hpre he
    unfold safe_read
    rw [if_pos rfl, henc, tryEncs_append f pre _ hpre, tryEncs, he]

/-- C3 witness: with utf-8 failing to decode and cp1252 parsing, the
loader returns the table with "cp1252"; with utf-8 raising a
non-decoding error, the loader fails even though every later encoding
would have parsed. -/
theorem spec_C3_witness :
    safe_read true (fun e => if e == "utf-8" then ReadAttempt.decodeErr
        else ReadAttempt.ok ⟨[], []⟩) = some (⟨[], []⟩, "cp1252") ∧
      safe_read true (fun e => if e == "utf-8" then ReadAttempt.otherErr
          else ReadAttempt.ok ⟨[], []⟩) = none := by
  constructor
  · exact spec_C3.2.1 _ ["utf-8"] "cp1252" ["latin-1", "iso-8859-9"] ⟨[], []⟩
      rfl (by decide) (by decide)
  · exact spec_C3.2.2.2 _ [] "utf-8" ["cp1252", "latin-1", "iso-8859-9"]
      rfl (by decide) (by decide)

/-- C4: when (after the column-name strip) no column name contains
"Country Code", or none contains "Indicator Code", `prepare_data`
reports the missing columns and returns an absent result for both the
long table and the metadata table, with no partial output. -/
theorem spec_C4 (w : Table) (country : Option Table)
    (h : ((w.cols.map pyStrip).all (fun c => !strHas c "Country Code")) = true ∨
        ((w.cols.map pyStrip).all (fun c => !strHas c "Indicator Code")) = true) :
    prepare_data (some w) country = (none, none) := by
  rcases h with h | h
  · have hc : findCol (w.cols.map pyStrip) "Country Code" = none :=
      findCol_none _ _ h
    cases hi : findCol (w.cols.map pyStrip) "Indicator Code" <;>
      simp [prepare_data, hc, hi]
  · have hi : findCol (w.cols.map pyStrip) "Indicator Code" = none :=
      findCol_none _ _ h
    cases hc : findCol (w.cols.map pyStrip) "Country Code" <;>
      simp [prepare_data, hc, hi]

/-- C4 witness: a table with a single column "A" aborts with
`(none, none)`. -/
theorem spec_C4_witness : prepare_data (some ⟨["A"], []⟩) none = (none, none) :=
  spec_C4 ⟨["A"], []⟩ none (Or.inl (by decide))

/-- C5: the classification merge is a left join on entity code that
adds exactly one new column — in the pipeline's case (no pre-existing
`Income Group` column) literally appending `Income Group`; a long row
whose entity code matches no classification entry (under pandas merge
keying, where null keys match each other) is kept with a missing
category cell; when the merge step raises (the required columns are
not both present in the classification table), the warning flag is set
and the long table is returned unchanged with all its rows; and an
absent classification table leaves the long table unchanged with no
warning. -/
theorem spec_C5 :
    (∀ (lg : Table) (ccol : String) (pairs : List (Cell × Cell)),
        (mergeLeft lg ccol pairs).cols.length = lg.cols.length + 1) ∧
      (∀ (lg : Table) (ccol : String) (pairs : List (Cell × Cell)),
          lg.cols.contains "Income Group" = false →
        (mergeLeft lg ccol pairs).cols = lg.cols ++ ["Income Group"]) ∧
      (∀ (lg : Table) (ccol : String) (pairs : List (Cell × Cell)),
          ∀ r ∈ lg.rows,
        (pairs.filter (fun p => mergeKeyEq (getCell lg.cols r ccol) p.1)) = [] →
          r ++ [Cell.missing] ∈ (mergeLeft lg ccol pairs).rows) ∧
      (∀ (lg : Table) (ccol : String) (ct : Table),
        (mergeRaw lg ccol (some ct)).isVal = false →
          mergeStep lg ccol (some ct) = (lg, true)) ∧
      (∀ (lg : Table) (ccol : String), mergeStep lg ccol none = (lg, false)) := by
  refine ⟨?_, ?_, ?_, ?_, fun lg ccol => rfl⟩
  · intro lg ccol pairs
    unfold mergeLeft
    split <;> simp [List.length_append, List.length_map]
  · intro lg ccol pairs hnc
    unfold mergeLeft
    rw [if_neg (by rw [hnc]; exact Bool.false_ne_true)]
  · intro lg ccol pairs r hr hfil
    unfold mergeLeft
    simp only [List.mem_flatMap]
    refine ⟨r, hr, ?_⟩
    simp [hfil]
  · intro lg ccol ct h
    cases hm : mergeRaw lg ccol (some ct) with
    | val t =>
      rw [hm] at h
      simp [PyResult.isVal] at h
    | exn p m =>
      unfold mergeStep
      rw [hm]

/-- C5 witness: without a pre-existing category column the merge
appends exactly `Income Group`; an unmatched entity keeps its row with
a missing category; and a classification table lacking the required
columns leaves the long table unchanged with the warning flag set. -/
theorem spec_C5_witness :
    (mergeLeft ⟨["C"], [[Cell.str "T"]]⟩ "C" []).cols = ["C"] ++ ["Income Group"] ∧
      ([Cell.str "T"] ++ [Cell.missing]) ∈
          (mergeLeft ⟨["C"], [[Cell.str "T"]]⟩ "C" []).rows ∧
        mergeStep ⟨[], []⟩ "x" (some ⟨["A"], []⟩) = (⟨[], []⟩, true) := by
  refine ⟨?_, ?_, ?_⟩
  · exact spec_C5.2.1 ⟨["C"], [[Cell.str "T"]]⟩ "C" [] (by decide)
  · exact spec_C5.2.2.1 ⟨["C"], [[Cell.str "T"]]⟩ "C" [] [Cell.str "T"]
      (by decide) (by decide)
  · exact spec_C5.2.2.2.1 ⟨[], []⟩ "x" ⟨["A"], []⟩ (by decide)

/-- C6: no exception escapes the reshaper or the exporter.  In the
embedding every potentially raising operation is explicit: the
reshaper's only raising step (the classification merge) is caught and
turned into a warning, `prepare_data` always returns a normal value,
and `save_and_show` maps any exception of its export body — raised at
the writer open or at any sheet write — to a report, returning
normally, with `PermissionError` reported as the locked-file case. -/
theorem spec_C6 :
    (∀ main country : Option Table, (prepare_dataE main country).isVal = true) ∧
      (∀ (lg : Table) (ccol : String) (country : Option Table),
        (mergeRaw lg ccol country).isVal = false →
          mergeStep lg ccol country = (lg, true)) ∧
      (∀ (df : Option Table) (info : Option (List (Cell × Cell)))
          (openErr : Option (Bool × String))
          (wfail : Nat → Option (Bool × String)),
        (save_and_show df info openErr wfail).isVal = true) ∧
      (∀ (t : Table) (info : Option (List (Cell × Cell)))
          (wfail : Nat → Option (Bool × String)) (m : String),
        save_and_show (some t) info (some (true, m)) wfail =
            PyResult.val ExportReport.lockedMsg ∧
          exportRaw (allSheets t info) (some (true, m)) wfail =
            PyResult.exn true m) := by
  refine ⟨fun m c => rfl, ?_, ?_, fun t info wf m => ⟨rfl, rfl⟩⟩
  · intro lg ccol country h
    cases hm : mergeRaw lg ccol country with
    | val t =>
      rw [hm] at h
      simp [PyResult.isVal] at h
    | exn p msg =>
      unfold mergeStep
      rw [hm]
  · intro df info oe wf
    unfold save_and_show
    split
    · rfl
    · split <;> rfl

/-- C6 witness: a classification table without the required columns
makes the merge raise, which is caught: the long table is returned
unchanged with the warning flag set. -/
theorem spec_C6_witness :
    mergeStep ⟨["Z"], []⟩ "Z" (some ⟨["B"], []⟩) = (⟨["Z"], []⟩, true) :=
  spec_C6.2.1 ⟨["Z"], []⟩ "Z" (some ⟨["B"], []⟩) (by decide)

/-- C7 (counterexample): the claim says every sheet name is at most 31
characters and non-empty.  A table whose only indicator code is the
empty string produces a sheet named `str(code)[:28] = ""`, which is
empty. -/
theorem spec_C7_counterexample :
    ∃ s ∈ dataSheets c7table, ¬ (s.name.length ≤ 31 ∧ s.name ≠ "") := by
  decide

/-- C7 (amended): every sheet name the exporter produces is at most 31
characters; names under the row-position scheme (`Part{i}`) and the
split scheme (`{code[:20]}_p{i}`) are always non-empty; names under the
single-sheet scheme (`str(code)[:28]`) are non-empty provided the
code's string form is non-empty. -/
theorem spec_C7_amended :
    (∀ (t : Table), ∀ s ∈ dataSheets t, s.name.length ≤ 31) ∧
      (∀ (rows : List (List Cell)), ∀ s ∈ partSheets rows, s.name ≠ "") ∧
        (∀ (code : Cell) (sub : List (List Cell)), SAFE_MAX < sub.length →
          ∀ s ∈ codeSheets code sub, s.name ≠ "") ∧
          (∀ (code : Cell) (sub : List (List Cell)), cellToString code ≠ "" →
            ∀ s ∈ codeSheets code sub, s.name ≠ "") := by
  refine ⟨?_, ?_, ?_, ?_⟩
  · intro t s hs
    cases hfind : findIndicatorCol t.cols with
    | none =>
      simp only [dataSheets, hfind] at hs
      unfold partSheets at hs
      rcases mem_numberWith _ _ _ _ hs with ⟨j, a, ha, hb⟩
      subst hb
      exact strTake_length_le _ 31
    | some icol =>
      simp only [dataSheets, hfind, indicatorSheets, List.mem_flatMap] at hs
      rcases hs with ⟨code, hcode, hs⟩
      split at hs
      · exact absurd hs (List.not_mem_nil s)
      · unfold codeSheets at hs
        split at hs
        · rcases List.mem_singleton.mp hs with rfl
          exact le_trans (strTake_length_le _ 28) (by omega)
        · rcases mem_numberWith _ _ _ _ hs with ⟨j, a, ha, hb⟩
          subst hb
          exact strTake_length_le _ 31
  · intro rows s hs
    unfold partSheets at hs
    rcases mem_numberWith _ _ _ _ hs with ⟨j, a, ha, hb⟩
    subst hb
    exact sheetName_part_ne j
  · intro code sub hlen s hs
    unfold codeSheets at hs
    split at hs
    · rename_i h
      omega
    · rcases mem_numberWith _ _ _ _ hs with ⟨j, a, ha, hb⟩
      subst hb
      exact sheetName_chunk_ne _ j
  · intro code sub hcode s hs
    unfold codeSheets at hs
    split at hs
    · rcases List.mem_singleton.mp hs with rfl
      refine strTake_ne_empty _ 28 (by omega) ?_
      exact fun hd => hcode ((data_eq_nil_iff _).mp hd)
    · rcases mem_numberWith _ _ _ _ hs with ⟨j, a, ha, hb⟩
      subst hb
      exact sheetName_chunk_ne _ j

/-- C7 witness: even with the empty-string code, every sheet of an
over-ceiling group (split scheme) has a non-empty name; and with the
non-empty code "X", every sheet of its group has a non-empty name. -/
theorem spec_C7_witness :
    (∀ s ∈ codeSheets (Cell.str "") (List.replicate 1048576 ([] : List Cell)),
        s.name ≠ "") ∧
      (∀ s ∈ codeSheets (Cell.str "X") [[]], s.name ≠ "") := by
  constructor
  · exact spec_C7_amended.2.2.1 (Cell.str "")
      (List.replicate 1048576 ([] : List Cell))
      (by rw [List.length_replicate]; decide)
  · exact spec_C7_amended.2.2.2 (Cell.str "X") [[]] (by decide)

/-- C8: round trip.  For a wide table whose rows are uniquely keyed by
their identifier cells, whose year columns carry pairwise distinct
extracted years, and whose year cells are numeric or missing, a cell is
the number `v` exactly when looking up that row's identifiers and that
column's year in the pivoted long data yields `v` — so un-pivoting
reconstructs every non-missing cell exactly. -/
theorem spec_C8 (t : Table)
    (hkey : ∀ r1 ∈ t.rows, ∀ r2 ∈ t.rows, rowIds t r1 = rowIds t r2 → r1 = r2)
    (hinj : ∀ c1 ∈ yearCols t.cols, ∀ c2 ∈ yearCols t.cols,
      extractYear c1 = extractYear c2 → c1 = c2)
    (hnum : ∀ r ∈ t.rows, ∀ c ∈ yearCols t.cols,
      numOrMissing (getCell t.cols r c) = true) :
    ∀ r ∈ t.rows, ∀ c ∈ yearCols t.cols, ∀ y : Nat, extractYear c = some y →
      ∀ v : Int, (getCell t.cols r c = Cell.num v ↔
        lookupLong (cleanLong t) (rowIds t r) y = some v) := by
  intro r hr c hc y hy v
  constructor
  · intro hcell
    have hmem : (⟨rowIds t r, y, v⟩ : LongRow) ∈ cleanLong t := by
      refine (mem_cleanLong t _).mpr ⟨c, hc, r, hr, hy, ?_, rfl⟩
      rw [hcell]
      rfl
    unfold lookupLong
    cases hfind : (cleanLong t).find?
        (fun lr => lr.ids == rowIds t r && lr.year == y) with
    | none =>
      exfalso
      have hnp := List.find?_eq_none.mp hfind _ hmem
      simp at hnp
    | some lr =>
      have hp := List.find?_some hfind
      have hlr := List.mem_of_find?_eq_some hfind
      simp only [Bool.and_eq_true, beq_iff_eq] at hp
      obtain ⟨hids, hyr⟩ := hp
      rcases (mem_cleanLong t lr).mp hlr with ⟨c', hc', r', hr', h1, h2, h3⟩
      have hrr : r' = r := by
        refine hkey r' hr' r hr ?_
        rw [← h3]
        exact hids
      subst hrr
      have hcc : c' = c := by
        refine hinj c' hc' c hc ?_
        rw [h1, hyr, hy]
      subst hcc
      rw [hcell] at h2
      simp only [toNum, Option.some.injEq] at h2
      simp [h2]
  · intro hlook
    unfold lookupLong at hlook
    cases hfind : (cleanLong t).find?
        (fun lr => lr.ids == rowIds t r && lr.year == y) with
    | none =>
      rw [hfind] at hlook
      simp at hlook
    | some lr =>
      rw [hfind] at hlook
      simp only [Option.map_some', Option.some.injEq] at hlook
      have hp := List.find?_some hfind
      have hlr := List.mem_of_find?_eq_some hfind
      simp only [Bool.and_eq_true, beq_iff_eq] at hp
      obtain ⟨hids, hyr⟩ := hp
      rcases (mem_cleanLong t lr).mp hlr with ⟨c', hc', r', hr', h1, h2, h3⟩
      have hrr : r' = r := by
        refine hkey r' hr' r hr ?_
        rw [← h3]
        exact hids
      have hcc : c' = c := by
        refine hinj c' hc' c hc ?_
        rw [h1, hyr, hy]
      rw [hrr, hcc] at h2
      have hn := hnum r hr c hc
      cases hcell : getCell t.cols r c with
      | missing =>
        rw [hcell] at h2
        simp [toNum] at h2
      | num w =>
        rw [hcell] at h2
        simp only [toNum, Option.some.injEq] at h2
        rw [h2, hlook]
      | str sv =>
        rw [hcell] at hn
        simp [numOrMissing] at hn

/-- C8 witness: in the concrete table `w8`, the 1990 cell of entity AAA
round-trips through the long data. -/
theorem spec_C8_witness :
    (getCell w8.cols [Cell.str "AAA", Cell.str "I1", Cell.num 7, Cell.missing]
        "1990" = Cell.num 7 ↔
      lookupLong (cleanLong w8)
        (rowIds w8 [Cell.str "AAA", Cell.str "I1", Cell.num 7, Cell.missing])
          1990 = some 7) :=
  spec_C8 w8 (by decide) (by decide) (by decide)
    [Cell.str "AAA", Cell.str "I1", Cell.num 7, Cell.missing] (by decide)
    "1990" (by decide) 1990 (by decide) 7

/-- C9: a row whose indicator code is missing (NaN) is written to no
sheet: the missing value does appear among the distinct partition keys,
but its equality filter selects zero rows (NaN ≠ NaN), the zero-row
skip drops the empty group, and the row belongs to no other group's
filter either, hence to no sheet. -/
theorem spec_C9 (t : Table) (icol : String) (r : List Cell)
    (hfind : findIndicatorCol t.cols = some icol)
    (hr : r ∈ t.rows)
    (hmiss : getCell t.cols r icol = Cell.missing) :
    Cell.missing ∈ uniqFirst (t.rows.map (fun x => getCell t.cols x icol)) ∧
      subFor t icol Cell.missing = [] ∧
        ∀ s ∈ dataSheets t, r ∉ s.rows := by
  refine ⟨?_, ?_, ?_⟩
  · exact mem_uniqFirst _ _ (List.mem_map.mpr ⟨r, hr, hmiss⟩)
  · rw [subFor, List.filter_eq_nil_iff]
    intro x hx
    simp [cellEqB_missing_right]
  · intro s hs hrs
    simp only [dataSheets, hfind, indicatorSheets, List.mem_flatMap] at hs
    rcases hs with ⟨code, hcode, hs⟩
    split at hs
    · exact absurd hs (List.not_mem_nil s)
    · have hsub := codeSheets_rows_subset code _ s hs r hrs
      have hfil := List.mem_filter.mp hsub
      rw [hmiss, cellEqB_missing_left] at hfil
      exact absurd hfil.2 (by decide)

/-- C9 witness: in `w9` the row with the missing code appears in no
sheet although the missing value is among the partition keys. -/
theorem spec_C9_witness :
    Cell.missing ∈
        uniqFirst (w9.rows.map (fun x => getCell w9.cols x "Indicator Code")) ∧
      subFor w9 "Indicator Code" Cell.missing = [] ∧
        ∀ s ∈ dataSheets w9, [Cell.missing] ∉ s.rows :=
  spec_C9 w9 "Indicator Code" [Cell.missing] (by decide) (by decide) (by decide)

/-- C10: the metadata table is the distinct (indicator code, indicator
name) pairs of the original wide table, computed before any row
dropping: in `w10` the indicator BAD loses its only row to the numeric
coercion, yet the metadata lists it, so the `Indicator_Info` sheet
names an indicator that occurs in no data sheet. -/
theorem spec_C10 :
    (prepare_data (some w10) none).1 = some c10long ∧
      (prepare_data (some w10) none).2 = some c10info ∧
        (∀ s ∈ dataSheets c10long, ∀ row ∈ s.rows, Cell.str "BAD" ∉ row) ∧
          (∃ s ∈ allSheets c10long (some c10info),
            s.name = "Indicator_Info" ∧ ∃ row ∈ s.rows, Cell.str "BAD" ∈ row) :=
  ⟨by decide, by decide, by decide, by decide⟩

end GIP
